import Mathlib

/-!
# Verification of the web-search-mcp orchestration layer

A shallow embedding of the core logic of the `web-search-mcp` repository:
the search fallback loop and quality scorer (`src/search-engine.ts`), the
browser pool rotation and single-flight launch logic (`src/browser-pool.ts`),
the durable monthly quota limiter (`src/brave-api-rate-limiter.ts`), the
zombie-process garbage collector (`src/search-engine.ts`, `GarbageCollector`),
and the two-tier content extraction pipeline
(`src/enhanced-content-extractor.ts`).

External effects (HTTP fetches, browser rendering, the process table, the
clock, the persisted usage file) are passed in as explicit parameters, so
every function here is a pure, executable translation of the corresponding
TypeScript control flow.
-/

namespace WebSearchMcp

/-! ## String helpers mirroring the JavaScript string operations used -/

/-- JavaScript `s.includes(pat)`: substring containment, via the char lists. -/
def strContains (s pat : String) : Bool :=
  decide (pat.data <:+: s.data)

/-- JavaScript `s.toLowerCase()`, idealised as per-character lowering. -/
def lowerStr (s : String) : String :=
  ⟨s.data.map Char.toLower⟩

/-- JavaScript `s.substring(0, n)` / truncation to the first `n` characters. -/
def strTake (s : String) (n : Nat) : String :=
  ⟨s.data.take n⟩

/-- Split a character list at every whitespace character, keeping the (possibly
empty) fragments between them, like JavaScript `s.split(/\s/)`. -/
def wsSplitAux : List Char → List Char → List String
  | [], acc => [⟨acc.reverse⟩]
  | c :: cs, acc =>
    if c.isWhitespace then ⟨acc.reverse⟩ :: wsSplitAux cs []
    else wsSplitAux cs (c :: acc)

/-- JavaScript `s.split(/\s+/)` up to empty fragments: splitting at every
single whitespace character instead of at runs yields extra empty fragments,
which the `length > 3` filter applied afterwards discards either way. -/
def wsSplit (s : String) : List String :=
  wsSplitAux s.data []

/-! ## Data model: `SearchResult` (`src/types.ts`, as used by the code) -/

inductive FetchStatus where
  | success
  | error
deriving DecidableEq, Repr

structure SearchResult where
  title : String
  url : String
  description : String
  fullContent : String
  contentPreview : String
  wordCount : Nat
  timestamp : String
  fetchStatus : FetchStatus
  error : Option String := none
deriving DecidableEq, Repr

/-! ## QualityScorer: `SearchEngine.assessResultQuality` -/

/-- `query.toLowerCase().split(/\s+/).filter(w => w.length > 3)`.
Splitting at each whitespace character can produce empty fragments where the
regex split would not, but the `length > 3` filter removes them, so the two
agree on the retained words. -/
def queryWords (query : String) : List String :=
  (wsSplit (lowerStr query)).filter (fun w => w.length > 3)

/-- One result matches when some qualifying query word occurs in its
lowercased title or description. -/
def resultMatches (ws : List String) (r : SearchResult) : Bool :=
  ws.any (fun w => strContains (lowerStr r.title) w || strContains (lowerStr r.description) w)

/-- `SearchEngine.assessResultQuality(results, query)`: returns 0 for an empty
result list, 1.0 when no query word is longer than 3 characters, otherwise the
fraction `matchCount / results.length` (written with `mkRat`, which agrees
with rational division by `Rat.mkRat_eq_div`). -/
def assessResultQuality (results : List SearchResult) (query : String) : ℚ :=
  if results.length = 0 then 0
  else
    let ws := queryWords query
    if ws.length = 0 then 1
    else mkRat (results.filter (resultMatches ws)).length results.length

/-! ## SearchOrchestrator: the fallback loop of `SearchEngine.search` -/

/-- Environment-derived configuration read at the top of `search`. -/
structure SearchConfig where
  enableQualityCheck : Bool
  qualityThreshold : ℚ
  forceMultiEngine : Bool
deriving DecidableEq, Repr

/-- The defaults: `ENABLE_RELEVANCE_CHECKING` unset (true), threshold `0.3`,
`FORCE_MULTI_ENGINE_SEARCH` unset (false). -/
def defaultSearchConfig : SearchConfig :=
  { enableQualityCheck := true, qualityThreshold := mkRat 3 10, forceMultiEngine := false }

/-- The outcome of one backend attempt: the call threw, or it returned a
(possibly empty) result list. -/
inductive AttemptOutcome where
  | fails
  | returns (rs : List SearchResult)
deriving DecidableEq, Repr

/-- The fixed priority list of backend names (`approaches` in `search`). -/
def approachNames : List String :=
  ["Browser DuckDuckGo", "Browser Bing", "Browser Brave", "Axios DuckDuckGo"]

/-- The running best-so-far triple `bestResults`/`bestEngine`/`bestQuality`. -/
structure BestTrack where
  bestResults : List SearchResult
  bestEngine : String
  bestQuality : ℚ
deriving DecidableEq, Repr

def initialBest : BestTrack :=
  { bestResults := [], bestEngine := "None", bestQuality := 0 }

/-- The quality score assigned to a successful attempt:
`enableQualityCheck ? assessResultQuality(results, query) : 1.0`. -/
def attemptScore (cfg : SearchConfig) (rs : List SearchResult) (query : String) : ℚ :=
  if cfg.enableQualityCheck then assessResultQuality rs query else 1

/-- Result of processing one successful backend attempt: an early `return`
from the loop, or continuation with an updated best-so-far. -/
inductive StepOutcome where
  | ret (results : List SearchResult) (engine : String)
  | cont (best : BestTrack)
deriving DecidableEq, Repr

/-- `if (qualityScore > bestQuality) { bestResults = results; ... }`. -/
def updateBest (best : BestTrack) (results : List SearchResult) (name : String)
    (qualityScore : ℚ) : BestTrack :=
  if best.bestQuality < qualityScore then
    { bestResults := results, bestEngine := name, bestQuality := qualityScore }
  else best

/-- The body of the `for` loop in `SearchEngine.search` for one non-throwing
attempt (lines 56–94): skip empty result sets, score, update the best-so-far,
then apply the three-tier return policy (excellent quality; acceptable quality
and not `'Browser Bing'`; last-engine best-so-far fallback). -/
def searchStep (cfg : SearchConfig) (query : String) (isLast : Bool)
    (name : String) (results : List SearchResult) (best : BestTrack) : StepOutcome :=
  if 0 < results.length then
    let qualityScore := attemptScore cfg results query
    let best' := updateBest best results name qualityScore
    if mkRat 4 5 ≤ qualityScore ∧ cfg.forceMultiEngine = false then
      .ret results name
    else if cfg.qualityThreshold ≤ qualityScore ∧ name ≠ "Browser Bing" ∧
        cfg.forceMultiEngine = false then
      .ret results name
    else if isLast then
      if cfg.qualityThreshold ≤ best'.bestQuality ∨ cfg.enableQualityCheck = false then
        .ret best'.bestResults best'.bestEngine
      else if 0 < best'.bestResults.length then
        .ret best'.bestResults best'.bestEngine
      else
        .cont best'
    else
      .cont best'
  else
    .cont best

/-- The loop over the (name, outcome) pairs: a throwing attempt is caught and
skipped; falling off the end yields the `([], "None")` sentinel. -/
def searchGo (cfg : SearchConfig) (query : String) :
    List (String × AttemptOutcome) → BestTrack → List SearchResult × String
  | [], _ => ([], "None")
  | (name, o) :: rest, best =>
    match o with
    | .fails => searchGo cfg query rest best
    | .returns rs =>
      match searchStep cfg query rest.isEmpty name rs best with
      | .ret r e => (r, e)
      | .cont b => searchGo cfg query rest b

/-- `SearchEngine.search` restricted to its decision logic: the i-th entry of
`outcomes` is what the i-th approach in `approachNames` did. -/
def searchLoop (cfg : SearchConfig) (query : String)
    (outcomes : List AttemptOutcome) : List SearchResult × String :=
  searchGo cfg query (approachNames.zip outcomes) initialBest

/-! ## Result parsers (`parseBraveResults`, `parseBingResults`,
`parseDuckDuckGoResults`, `parseDuckDuckGoBrowserResults`)

Each parser iterates over the elements cheerio selected, skipping elements
once `maxResults` results have been collected (`if (results.length >=
maxResults) return;` skips the callback body but keeps iterating), and pushes
a result only when both the extracted title and `href` attribute are truthy
(present and non-empty). A `RawSnippet` is the field triple the selectors
extract from one element. -/

structure RawSnippet where
  title : String
  url : Option String
  description : String
deriving DecidableEq, Repr

/-- A fresh `SearchResult` as the parsers build one. -/
def mkParsedResult (title url description timestamp : String) : SearchResult :=
  { title := title, url := url, description := description, fullContent := "",
    contentPreview := "", wordCount := 0, timestamp := timestamp,
    fetchStatus := .success, error := none }

/-- One iteration of an `.each` pass: skip once `maxResults` results are
collected, push only elements with truthy title and url. `urlOf` transforms
the raw `href` (identity everywhere except the DuckDuckGo `uddg=` unwrap) and
`descOf` derives the description (the Brave fallback pass hardcodes `''`). -/
def collectStep (timestamp : String) (maxResults : Nat)
    (urlOf : String → String) (descOf : RawSnippet → String)
    (acc : List SearchResult) (el : RawSnippet) : List SearchResult :=
  if maxResults ≤ acc.length then acc
  else
    match el.url with
    | some u =>
      if el.title ≠ "" ∧ u ≠ "" then
        acc ++ [mkParsedResult el.title (urlOf u) (descOf el) timestamp]
      else acc
    | none => acc

/-- One `.each` pass over the selected elements. -/
def collectResults (timestamp : String) (maxResults : Nat)
    (descOf : RawSnippet → String) (els : List RawSnippet) : List SearchResult :=
  els.foldl (collectStep timestamp maxResults id descOf) []

/-- `parseBraveResults`: primary `#results .snippet[data-type="web"]` pass,
then, only when it produced nothing, a `.snippet` fallback pass whose
description is hardcoded to the empty string. -/
def parseBraveResults (primary fallback : List RawSnippet) (maxResults : Nat)
    (timestamp : String) : List SearchResult :=
  let results := collectResults timestamp maxResults (fun el => el.description) primary
  if results.length = 0 then
    collectResults timestamp maxResults (fun _ => "") fallback
  else results

/-- `parseBingResults`: a single `.b_algo` pass. -/
def parseBingResults (els : List RawSnippet) (maxResults : Nat)
    (timestamp : String) : List SearchResult :=
  collectResults timestamp maxResults (fun el => el.description) els

/-- `parseDuckDuckGoBrowserResults`: React `article` pass, then a legacy
`.result` fallback pass when the first produced nothing. -/
def parseDuckDuckGoBrowserResults (primary fallback : List RawSnippet)
    (maxResults : Nat) (timestamp : String) : List SearchResult :=
  let results := collectResults timestamp maxResults (fun el => el.description) primary
  if results.length = 0 then
    collectResults timestamp maxResults (fun el => el.description) fallback
  else results

/-- `parseDuckDuckGoResults` (the axios HTML fallback): a single `.result`
pass whose url is first run through the `uddg=` redirect-unwrapping step;
that step only rewrites the url string (`cleanUrl` here abstracts the
`new URL`/`searchParams` logic), so it does not change the count. -/
def parseDuckDuckGoResults (cleanUrl : String → String) (els : List RawSnippet)
    (maxResults : Nat) (timestamp : String) : List SearchResult :=
  els.foldl (collectStep timestamp maxResults cleanUrl (fun el => el.description)) []

/-! ## BrowserPool (`src/browser-pool.ts`)

The pool's shared mutable state, with the physical browser and the pending
launch promise represented by numeric identifiers. `launchesStarted` counts
physical launch initiations and `closed` logs browsers handed to
`safeCloseBrowser` (whose own failures are caught and logged, so closing
always completes). The `await` points of `getBrowser` split it into a
synchronous decision step (`getBrowserStep`) and the launch settlement
(`settleLaunch`, the `try`/`finally` around `await this.browserLaunchPromise`).
-/

def MAX_CONTEXTS_PER_BROWSER : Nat := 50

structure PoolState where
  browser : Option Nat
  browserLaunchPromise : Option Nat
  contextCount : Nat
  launchesStarted : Nat
  closed : List Nat
deriving DecidableEq, Repr

/-- What a `getBrowser()` call does after its synchronous checks: return the
healthy existing browser, await the already-pending launch promise, or
initiate a new launch. -/
inductive BrowserAction where
  | useExisting (b : Nat)
  | awaitPending (p : Nat)
  | startLaunch (p : Nat)
deriving DecidableEq, Repr

/-- Lines 45–63 of `getBrowser`: reuse a connected browser below the rotation
threshold; otherwise close and null the stale browser, then either share the
pending launch promise or install a fresh one (`freshPromise`). -/
def getBrowserStep (connected : Nat → Bool) (freshPromise : Nat)
    (s : PoolState) : BrowserAction × PoolState :=
  let afterClose : PoolState :=
    match s.browser with
    | some b =>
      if connected b ∧ s.contextCount < MAX_CONTEXTS_PER_BROWSER then s
      else { s with browser := none, closed := s.closed ++ [b] }
    | none => s
  match s.browser with
  | some b =>
    if connected b ∧ s.contextCount < MAX_CONTEXTS_PER_BROWSER then
      (.useExisting b, s)
    else
      match afterClose.browserLaunchPromise with
      | some p => (.awaitPending p, afterClose)
      | none =>
        (.startLaunch freshPromise,
          { afterClose with
              browserLaunchPromise := some freshPromise
              launchesStarted := afterClose.launchesStarted + 1 })
  | none =>
    match afterClose.browserLaunchPromise with
    | some p => (.awaitPending p, afterClose)
    | none =>
      (.startLaunch freshPromise,
        { afterClose with
            browserLaunchPromise := some freshPromise
            launchesStarted := afterClose.launchesStarted + 1 })

/-- Lines 65–71 of `getBrowser`, run by the launch initiator when the launch
promise settles: on success (`some b`) store the browser and reset the context
counter; on failure only the `finally` runs. Both clear the pending marker. -/
def settleLaunch (s : PoolState) (outcome : Option Nat) : PoolState :=
  match outcome with
  | some b =>
    { s with browser := some b, contextCount := 0, browserLaunchPromise := none }
  | none => { s with browserLaunchPromise := none }

/-- A whole `getBrowser()` call as one caller observes it when no other caller
interleaves: `launchResult`/`pendingResult` are the eventual values (`none` =
rejection) of a launch this call initiates resp. of an already-pending
promise it joins. Returns the browser obtained, or `none` if the awaited
launch failed. -/
def runGetBrowser (connected : Nat → Bool) (freshPromise : Nat)
    (launchResult pendingResult : Option Nat) (s : PoolState) :
    Option Nat × PoolState :=
  match getBrowserStep connected freshPromise s with
  | (.useExisting b, s') => (some b, s')
  | (.awaitPending _, s') => (pendingResult, s')
  | (.startLaunch _, s') =>
    match launchResult with
    | some b => (some b, settleLaunch s' (some b))
    | none => (none, settleLaunch s' none)

/-- `getContext` (lines 19–43): obtain a browser via `getBrowser`, then
increment the context counter; the persona-specific `newContext` call is
external. -/
def getContext (connected : Nat → Bool) (freshPromise : Nat)
    (launchResult pendingResult : Option Nat) (s : PoolState) :
    Option Nat × PoolState :=
  match runGetBrowser connected freshPromise launchResult pendingResult s with
  | (some b, s') => (some b, { s' with contextCount := s'.contextCount + 1 })
  | (none, s') => (none, s')

/-! ## QuotaLimiter (`src/brave-api-rate-limiter.ts`)

The durable monthly counter. The clock and the persisted file are explicit
parameters: `file` is the parsed content of `.brave-api-usage.json` (`none`
for a missing or corrupt file), `currentMonth` the `YYYY-MM` string for now.
The per-second pacing sleep does not change the counter or the file and is
not modelled. -/

structure MonthlyUsage where
  month : String
  count : Nat
deriving DecidableEq, Repr

/-- `loadUsage`: reset to a zero count when the file is missing/corrupt or its
month is not the current month. -/
def loadUsage (file : Option MonthlyUsage) (currentMonth : String) : MonthlyUsage :=
  match file with
  | none => { month := currentMonth, count := 0 }
  | some usage =>
    if usage.month ≠ currentMonth then { month := currentMonth, count := 0 }
    else usage

/-- Whether the wrapped `fn()` call resolves or rejects. -/
inductive FnOutcome where
  | succeeds
  | fails
deriving DecidableEq, Repr

/-- One `execute(fn)` call's observable outcome. -/
inductive ExecOutcome where
  /-- Thrown before `fn` is invoked: the monthly-limit error, which reports
  the days remaining until the 1st of the next month. -/
  | monthlyLimitError (daysUntilReset : Nat)
  /-- `fn` was invoked and its resolution/rejection is forwarded. -/
  | ranFn (outcome : FnOutcome)
deriving DecidableEq, Repr

/-- The state `execute` leaves behind: the in-memory usage and the file. -/
structure LimiterState where
  usage : MonthlyUsage
  file : Option MonthlyUsage
deriving DecidableEq, Repr

/-- `BraveApiRateLimiter.execute(fn)` after `init()`: refuse when the count
has reached the cap (without invoking `fn` and without touching state);
otherwise run `fn`, and only on success increment the counter and persist it
(`saveUsage`). `daysUntilReset` is the value `getDaysUntilReset()` computes
from the clock. -/
def execute (maxRequestsPerMonth : Nat) (daysUntilReset : Nat)
    (st : LimiterState) (fn : FnOutcome) : ExecOutcome × LimiterState :=
  if maxRequestsPerMonth ≤ st.usage.count then
    (.monthlyLimitError daysUntilReset, st)
  else
    match fn with
    | .succeeds =>
      let usage' : MonthlyUsage := { month := st.usage.month, count := st.usage.count + 1 }
      (.ranFn .succeeds, { usage := usage', file := some usage' })
    | .fails => (.ranFn .fails, st)

/-! ## ProcessReaper (`GarbageCollector` in `src/search-engine.ts`)

A sweep sees the process rows `ps -eo pid,etimes,cmd` produced (already
filtered to chrome/chromium) and decides which to kill. All age comparisons
are written exactly as the JavaScript computes them (`etime <
maxProcessAgeMs / 1000` and `etime / 60 > maxProcessAgeMs / 60000`), as exact
rationals. -/

structure ProcessInfo where
  pid : Nat
  etime : Nat
  cmd : String
deriving DecidableEq, Repr

/-- The default `GCConfig.maxProcessAgeMs`: 30 minutes. -/
def defaultMaxProcessAgeMs : Nat := 30 * 60 * 1000

/-- `GarbageCollector.isOrphanedChrome`: not a candidate unless the command
line mentions `playwright` or `user-data-dir=/tmp/playwright`; otherwise
orphaned when its age in minutes exceeds the configured max age. -/
def isOrphanedChrome (maxProcessAgeMs : Nat) (proc : ProcessInfo) : Bool :=
  if strContains proc.cmd "playwright" = false ∧
      strContains proc.cmd "user-data-dir=/tmp/playwright" = false then
    false
  else
    decide (mkRat maxProcessAgeMs 60000 < mkRat proc.etime 60)

/-- The per-process decision of `runGC`: skip when younger than the threshold,
skip our own pid, then apply `isOrphanedChrome`. -/
def gcShouldKill (maxProcessAgeMs : Nat) (myPid : Nat) (proc : ProcessInfo) : Bool :=
  if mkRat proc.etime 1 < mkRat maxProcessAgeMs 1000 then false
  else if proc.pid = myPid then false
  else isOrphanedChrome maxProcessAgeMs proc

/-- The set of processes one `runGC` sweep terminates. -/
def runGCKilled (maxProcessAgeMs : Nat) (myPid : Nat)
    (procs : List ProcessInfo) : List ProcessInfo :=
  procs.filter (gcShouldKill maxProcessAgeMs myPid)

/-! ## ExtractionPipeline (`src/enhanced-content-extractor.ts`)

The HTTP fetch and the rendered-browser fetch are parameters of type
`Except HttpError String`; an `.ok` value is the text `parseContent` extracts
from the body before its final truncation (the cheerio markup reduction is
external). -/

structure HttpError where
  status : Option Nat
  message : String
  data : Option String
deriving DecidableEq, Repr

/-- Modelled from the spec: `cleanText` lives in `src/utils.ts`, which is not
among the provided sources; per the spec, overlength content is truncated to
the maximum length, never raised as an error. -/
def cleanText (s : String) (maxLen : Nat) : String :=
  if maxLen < s.length then strTake s maxLen else s

/-- `isLowQualityContent`: short, challenge-marked, or blank content. The
`content.trim() === ''` test is the all-whitespace test. -/
def isLowQualityContent (content : String) : Bool :=
  decide (content.length < 100) ||
  strContains content "Please enable JavaScript" ||
  strContains content "Access Denied" ||
  strContains content "403 Forbidden" ||
  strContains content "captcha" ||
  strContains content "unusual traffic" ||
  strContains content "robot" ||
  content.data.all (fun c => c.isWhitespace)

/-- `extractWithAxios` (lines 64–104): on a successful fetch, run the body
through `parseContent` (whose final step truncates to the extractor's
configured `maxContentLength`), then truncate to the per-call
`maxContentLength` option when that is truthy (non-zero) and exceeded, then
reject low-quality content. -/
def extractWithAxios (fetched : Except HttpError String)
    (instanceMaxLen requestedMaxLen : Nat) : Except HttpError String :=
  match fetched with
  | .error e => .error e
  | .ok body =>
    let content := cleanText body instanceMaxLen
    let content :=
      if requestedMaxLen ≠ 0 ∧ requestedMaxLen < content.length then
        strTake content requestedMaxLen
      else content
    if isLowQualityContent content then
      .error { status := none,
               message := "Low quality content detected - likely bot detection",
               data := none }
    else .ok content

/-- `extractWithBrowser` (lines 106–182): render, read the page markup, run it
through `parseContent`. The per-call `maxContentLength` option is not read on
this path; only `parseContent`'s own truncation to the instance-wide
`maxContentLength` applies. -/
def extractWithBrowser (rendered : Except HttpError String)
    (instanceMaxLen : Nat) : Except HttpError String :=
  match rendered with
  | .error e => .error e
  | .ok html => .ok (cleanText html instanceMaxLen)

/-- `shouldUseBrowser(error, url)`: the escalation indicator disjunction. -/
def shouldUseBrowser (e : HttpError) (url : String) : Bool :=
  decide (e.status = some 403) ||
  decide (e.status = some 429) ||
  decide (e.status = some 503) ||
  strContains e.message "timeout" ||
  strContains e.message "Access denied" ||
  strContains e.message "Forbidden" ||
  strContains e.message "Low quality content detected" ||
  (match e.data with
   | some d =>
     strContains d "Please enable JavaScript" || strContains d "captcha" ||
     strContains d "unusual traffic" || strContains d "robot"
   | none => false) ||
  strContains url "twitter.com" ||
  strContains url "facebook.com" ||
  strContains url "instagram.com" ||
  strContains url "linkedin.com" ||
  strContains url "reddit.com" ||
  strContains url "medium.com"

/-- `extractContent` (lines 34–62): try the lightweight path; on failure,
escalate to the rendered path when `shouldUseBrowser` says so, else propagate
the lightweight failure. -/
def extractContent (axiosFetch browserFetch : Except HttpError String)
    (instanceMaxLen requestedMaxLen : Nat) (url : String) : Except String String :=
  match extractWithAxios axiosFetch instanceMaxLen requestedMaxLen with
  | .ok content => .ok content
  | .error e =>
    if shouldUseBrowser e url then
      match extractWithBrowser browserFetch instanceMaxLen with
      | .ok content => .ok content
      | .error _ => .error ("Both axios and browser extraction failed for " ++ url)
    else .error e.message

/-! ## Bulk extraction (`extractContentForResults`) -/

/-- Modelled from the spec: `isPdfUrl` lives in `src/utils.ts`, which is not
among the provided sources; per the spec it is a URL-pattern test for PDF
documents. -/
def isPdfUrl (url : String) : Bool :=
  decide (".pdf".data <:+ (lowerStr url).data)

/-- Modelled from the spec: `getContentPreview` lives in `src/utils.ts`; the
spec only names the field, so the preview is a fixed-length prefix. -/
def getContentPreview (s : String) : String :=
  strTake s 200

/-- Modelled from the spec: `getWordCount` lives in `src/utils.ts`; per the
data model, `wordCount` is the token count of `fullContent`. -/
def getWordCount (s : String) : Nat :=
  ((wsSplit s).filter (fun w => w ≠ "")).length

/-- How one candidate's extraction (behind its `Promise.race` with the outer
timeout) terminates: with content, or with the caught exception. -/
inductive CaughtError where
  /-- An axios error with its `code`, optional response status, and message. -/
  | axiosErr (code : Option String) (status : Option Nat) (message : String)
  /-- A non-axios `Error` (`some` message) or non-`Error` throw (`none`). -/
  | genericErr (message : Option String)
deriving DecidableEq, Repr

/-- `getSpecificErrorMessage` (lines 386–407). -/
def getSpecificErrorMessage (e : CaughtError) : String :=
  match e with
  | .axiosErr code status message =>
    if code = some "ECONNABORTED" then "Request timeout"
    else if status = some 403 then "403 Forbidden - Access denied"
    else if status = some 404 then "404 Not found"
    else if strContains message "maxContentLength" then "Content too long"
    else
      match status with
      | some st => "HTTP " ++ toString st ++ ": " ++ message
      | none => "Network error: " ++ message
  | .genericErr (some m) => m
  | .genericErr none => "Unknown error"

/-- The candidate list `resultsToProcess`: drop PDF URLs, keep the first
`min(targetCount * 2, 10)`. -/
def candidatesToProcess (results : List SearchResult) (targetCount : Nat) :
    List SearchResult :=
  (results.filter (fun r => isPdfUrl r.url = false)).take (min (targetCount * 2) 10)

/-- The per-candidate `map` body: build a success record (spread over the
input record) or an error record with the classified message. -/
def processOne (instanceMaxLen : Nat) (timestamp : String)
    (attempt : SearchResult → Except CaughtError String) (r : SearchResult) :
    SearchResult :=
  match attempt r with
  | .ok content =>
    let cleanedContent := cleanText content instanceMaxLen
    { r with fullContent := cleanedContent,
             contentPreview := getContentPreview cleanedContent,
             wordCount := getWordCount cleanedContent,
             timestamp := timestamp,
             fetchStatus := .success }
  | .error e =>
    { r with fullContent := "", contentPreview := "", wordCount := 0,
             timestamp := timestamp, fetchStatus := .error,
             error := some (getSpecificErrorMessage e) }

/-- `extractContentForResults(results, targetCount)` (lines 251–314):
filter and cap the candidates, extract each (`attempt` gives each candidate's
outcome), then return successes first, failures filling the remaining slots,
capped at `targetCount`. -/
def extractContentForResults (instanceMaxLen : Nat) (timestamp : String)
    (attempt : SearchResult → Except CaughtError String)
    (results : List SearchResult) (targetCount : Nat) : List SearchResult :=
  let allResults := (candidatesToProcess results targetCount).map
    (processOne instanceMaxLen timestamp attempt)
  let successfulResults := allResults.filter (fun r => r.fetchStatus = .success)
  let failedResults := allResults.filter (fun r => r.fetchStatus = .error)
  (successfulResults.take targetCount ++
    failedResults.take (targetCount - successfulResults.length)).take targetCount

/-! ## Concrete fixtures used by counterexamples and witnesses -/

/-- A result whose title and description share no qualifying word with the
queries used below. -/
def noMatchResult : SearchResult :=
  { title := "zzz", url := "http://z.example", description := "zzz",
    fullContent := "", contentPreview := "", wordCount := 0, timestamp := "t0",
    fetchStatus := .success, error := none }

/-- A result whose title contains the query word `example`. -/
def exampleMatchResult : SearchResult :=
  { title := "Example page about things", url := "http://a.example",
    description := "", fullContent := "", contentPreview := "", wordCount := 0,
    timestamp := "t0", fetchStatus := .success, error := none }

/-- A two-element result list scoring exactly 1/2 against `"example test"`. -/
def halfScoreResults : List SearchResult :=
  [exampleMatchResult, noMatchResult]

/-- 300 characters of extracted page text (over the 100-character low-quality
floor and free of challenge markers). -/
def overlongContent : String :=
  ⟨List.replicate 300 'a'⟩

/-- The record the bulk extractor builds for `noMatchResult` when its
extraction throws a bare (messageless) error. -/
def failedNoMatchRecord : SearchResult :=
  { noMatchResult with
      timestamp := "t1"
      fetchStatus := FetchStatus.error
      error := some "Unknown error" }

/-! ## Helper lemmas -/

theorem searchStep_empty (cfg : SearchConfig) (query : String) (isLast : Bool)
    (name : String) (best : BestTrack) :
    searchStep cfg query isLast name [] best = .cont best := by
  simp [searchStep]

theorem updateBest_length_le {best : BestTrack} {rs : List SearchResult}
    {name : String} {score : ℚ} {n : Nat} (hrs : rs.length ≤ n)
    (hb : best.bestResults.length ≤ n) :
    (updateBest best rs name score).bestResults.length ≤ n := by
  unfold updateBest
  split
  · exact hrs
  · exact hb

theorem updateBest_ne_nil {best : BestTrack} {rs : List SearchResult}
    {name : String} {score : ℚ}
    (hb : 0 < best.bestQuality → best.bestResults ≠ []) (hrs : rs ≠ [])
    (hscore : 0 < score) :
    (updateBest best rs name score).bestResults ≠ [] := by
  unfold updateBest
  split
  · exact hrs
  · next hle => exact hb (lt_of_lt_of_le hscore (not_lt.mp hle))

/-- Exhaustive description of what one loop body iteration can do. -/
theorem searchStep_cases (cfg : SearchConfig) (query : String) (isLast : Bool)
    (name : String) (rs : List SearchResult) (best : BestTrack) :
    (rs = [] ∧ searchStep cfg query isLast name rs best = .cont best) ∨
    (rs ≠ [] ∧ searchStep cfg query isLast name rs best = .ret rs name) ∨
    (rs ≠ [] ∧ isLast = true ∧
      searchStep cfg query isLast name rs best =
        .ret (updateBest best rs name (attemptScore cfg rs query)).bestResults
          (updateBest best rs name (attemptScore cfg rs query)).bestEngine) ∨
    (rs ≠ [] ∧ isLast = false ∧
      searchStep cfg query isLast name rs best =
        .cont (updateBest best rs name (attemptScore cfg rs query))) ∨
    (rs ≠ [] ∧ isLast = true ∧
      (updateBest best rs name (attemptScore cfg rs query)).bestResults = [] ∧
      searchStep cfg query isLast name rs best =
        .cont (updateBest best rs name (attemptScore cfg rs query))) := by
  by_cases hpos : 0 < rs.length
  · have hne : rs ≠ [] := List.length_pos.mp hpos
    simp only [searchStep, if_pos hpos]
    split_ifs with h1 h2 h3 h4 h5
    · exact Or.inr (Or.inl ⟨hne, rfl⟩)
    · exact Or.inr (Or.inl ⟨hne, rfl⟩)
    · exact Or.inr (Or.inr (Or.inl ⟨hne, h3, rfl⟩))
    · exact Or.inr (Or.inr (Or.inl ⟨hne, h3, rfl⟩))
    · exact Or.inr (Or.inr (Or.inr (Or.inr
        ⟨hne, h3, List.length_eq_zero.mp (Nat.le_zero.mp (not_lt.mp h5)), rfl⟩)))
    · exact Or.inr (Or.inr (Or.inr (Or.inl ⟨hne, Bool.not_eq_true _ ▸ by
        simpa using h3, rfl⟩)))
  · have hnil : rs = [] := by
      cases rs with
      | nil => rfl
      | cons a l => exact absurd (by simp) hpos
    subst hnil
    exact Or.inl ⟨rfl, searchStep_empty cfg query isLast name best⟩

theorem searchGo_of_all_empty (cfg : SearchConfig) (query : String) :
    ∀ (l : List (String × AttemptOutcome)) (best : BestTrack),
      (∀ p ∈ l, p.2 = AttemptOutcome.fails ∨ p.2 = AttemptOutcome.returns []) →
      searchGo cfg query l best = ([], "None") := by
  intro l
  induction l with
  | nil => intro best _; rfl
  | cons hd tl ih =>
    intro best h
    obtain ⟨name, o⟩ := hd
    have hh := h (name, o) (List.mem_cons_self _ _)
    have htl : ∀ p ∈ tl, p.2 = AttemptOutcome.fails ∨ p.2 = AttemptOutcome.returns [] :=
      fun p hp => h p (List.mem_cons_of_mem _ hp)
    simp only at hh
    rcases hh with h1 | h1 <;> subst h1
    · simpa [searchGo] using ih best htl
    · simp only [searchGo, searchStep_empty]
      exact ih best htl

theorem searchGo_length_le (cfg : SearchConfig) (query : String) (n : Nat) :
    ∀ (l : List (String × AttemptOutcome)) (best : BestTrack),
      (∀ p ∈ l, ∀ rs, p.2 = AttemptOutcome.returns rs → rs.length ≤ n) →
      best.bestResults.length ≤ n →
      (searchGo cfg query l best).1.length ≤ n := by
  intro l
  induction l with
  | nil => intro best _ _; simp [searchGo]
  | cons hd tl ih =>
    intro best h hb
    obtain ⟨name, o⟩ := hd
    have htl : ∀ p ∈ tl, ∀ rs, p.2 = AttemptOutcome.returns rs → rs.length ≤ n :=
      fun p hp => h p (List.mem_cons_of_mem _ hp)
    cases o with
    | fails => simpa [searchGo] using ih best htl hb
    | returns rs =>
      have hrs : rs.length ≤ n := h (name, .returns rs) (List.mem_cons_self _ _) rs rfl
      have hub : (updateBest best rs name (attemptScore cfg rs query)).bestResults.length ≤ n :=
        updateBest_length_le hrs hb
      simp only [searchGo]
      rcases searchStep_cases cfg query tl.isEmpty name rs best with
        ⟨-, hc⟩ | ⟨-, hc⟩ | ⟨-, -, hc⟩ | ⟨-, -, hc⟩ | ⟨-, -, -, hc⟩ <;> rw [hc]
      · exact ih best htl hb
      · exact hrs
      · exact hub
      · exact ih _ htl hub
      · exact ih _ htl hub

theorem updateBest_pos_inv {best : BestTrack} {rs : List SearchResult}
    {name : String} {score : ℚ}
    (hb : 0 < best.bestQuality → best.bestResults ≠ []) (hrs : rs ≠ []) :
    0 < (updateBest best rs name score).bestQuality →
      (updateBest best rs name score).bestResults ≠ [] := by
  unfold updateBest
  split
  · intro _; exact hrs
  · exact hb

theorem searchGo_append_last_ne_nil (cfg : SearchConfig) (query : String)
    (rs : List SearchResult) (hrs : rs ≠ [])
    (hq : cfg.enableQualityCheck = false ∨ 0 < assessResultQuality rs query) :
    ∀ (l : List (String × AttemptOutcome)) (name : String) (best : BestTrack),
      (0 < best.bestQuality → best.bestResults ≠ []) →
      (searchGo cfg query (l ++ [(name, AttemptOutcome.returns rs)]) best).1 ≠ [] := by
  have hpos : 0 < attemptScore cfg rs query := by
    rcases hq with h | h
    · simp [attemptScore, h]
    · cases hqc : cfg.enableQualityCheck with
      | true => simpa [attemptScore, hqc] using h
      | false => simp [attemptScore, hqc]
  intro l
  induction l with
  | nil =>
    intro name best hb
    have hub : (updateBest best rs name (attemptScore cfg rs query)).bestResults ≠ [] :=
      updateBest_ne_nil hb hrs hpos
    simp only [List.nil_append, searchGo, List.isEmpty_nil]
    rcases searchStep_cases cfg query true name rs best with
      ⟨hnil, -⟩ | ⟨-, hc⟩ | ⟨-, -, hc⟩ | ⟨-, hfalse, -⟩ | ⟨-, -, hemp, -⟩
    · exact absurd hnil hrs
    · rw [hc]; simpa using hrs
    · rw [hc]; simpa using hub
    · exact absurd hfalse (by simp)
    · exact absurd hemp hub
  | cons hd tl ih =>
    intro name best hb
    obtain ⟨nm, o⟩ := hd
    cases o with
    | fails => simpa [searchGo] using ih name best hb
    | returns rs' =>
      have hlast : (tl ++ [(name, AttemptOutcome.returns rs)]).isEmpty = false := by
        simp
      simp only [List.cons_append, searchGo, List.append_eq, hlast]
      rcases searchStep_cases cfg query false nm rs' best with
        ⟨-, hc⟩ | ⟨h1, hc⟩ | ⟨-, htrue, -⟩ | ⟨h1, -, hc⟩ | ⟨-, htrue, -, -⟩
      · rw [hc]; exact ih name best hb
      · rw [hc]; simpa using h1
      · exact absurd htrue (by simp)
      · rw [hc]; exact ih name _ (updateBest_pos_inv hb h1)
      · exact absurd htrue (by simp)

theorem collectStep_length_le {timestamp : String} {maxResults : Nat}
    {urlOf : String → String} {descOf : RawSnippet → String}
    {acc : List SearchResult} {el : RawSnippet} (h : acc.length ≤ maxResults) :
    (collectStep timestamp maxResults urlOf descOf acc el).length ≤ maxResults := by
  unfold collectStep
  split
  · exact h
  · next hlt =>
    have hlt' : acc.length < maxResults := not_le.mp hlt
    split
    · split
      · simpa using hlt'
      · exact h
    · exact h

theorem foldl_collectStep_length_le (timestamp : String) (maxResults : Nat)
    (urlOf : String → String) (descOf : RawSnippet → String) :
    ∀ (els : List RawSnippet) (acc : List SearchResult),
      acc.length ≤ maxResults →
      (els.foldl (collectStep timestamp maxResults urlOf descOf) acc).length ≤ maxResults := by
  intro els
  induction els with
  | nil => intro acc h; simpa using h
  | cons e tl ih =>
    intro acc h
    simpa [List.foldl_cons] using ih _ (collectStep_length_le h)

/-! ## Claim C1 -/

/-- C1 counterexample: the first backend returns the non-empty set
`[noMatchResult]` (quality score 0 against `"example query"`), the remaining
three backends throw, and `search` nevertheless returns the `([], "None")`
sentinel — so a run in which a backend attempt produced a non-empty result
set does not always return a best-so-far non-empty set. -/
theorem claim_C1_counterexample :
    ([noMatchResult] : List SearchResult) ≠ [] ∧
    searchLoop defaultSearchConfig "example query"
        [AttemptOutcome.returns [noMatchResult], .fails, .fails, .fails] =
      ([], "None") := by
  constructor
  · simp
  · decide

/-- C1 (amended): `([], "None")` is returned whenever every backend attempt
fails or returns an empty set; and whenever the *last* backend attempt returns
a non-empty set whose quality score is positive (or quality checking is
disabled), the returned result list is non-empty. A non-empty set seen only
in an earlier attempt — with quality score too low for an early return — is
not enough: if the last backend then throws or returns empty, the loop falls
through to the empty sentinel (and a score-0 set is never tracked as
best-so-far), as the counterexample shows. -/
theorem claim_C1 (cfg : SearchConfig) (query : String)
    (o1 o2 o3 o4 : AttemptOutcome) (rs : List SearchResult) :
    ((∀ o ∈ [o1, o2, o3, o4], o = AttemptOutcome.fails ∨ o = AttemptOutcome.returns []) →
      searchLoop cfg query [o1, o2, o3, o4] = ([], "None")) ∧
    (rs ≠ [] →
      (cfg.enableQualityCheck = false ∨ 0 < assessResultQuality rs query) →
      (searchLoop cfg query [o1, o2, o3, AttemptOutcome.returns rs]).1 ≠ []) := by
  constructor
  · intro h
    show searchGo cfg query
      [("Browser DuckDuckGo", o1), ("Browser Bing", o2), ("Browser Brave", o3),
        ("Axios DuckDuckGo", o4)] initialBest = ([], "None")
    apply searchGo_of_all_empty
    intro p hp
    simp only [List.mem_cons, List.not_mem_nil, or_false] at hp
    rcases hp with rfl | rfl | rfl | rfl
    · exact h o1 (by simp)
    · exact h o2 (by simp)
    · exact h o3 (by simp)
    · exact h o4 (by simp)
  · intro hrs hq
    show (searchGo cfg query
      ([("Browser DuckDuckGo", o1), ("Browser Bing", o2), ("Browser Brave", o3)] ++
        [("Axios DuckDuckGo", AttemptOutcome.returns rs)]) initialBest).1 ≠ []
    exact searchGo_append_last_ne_nil cfg query rs hrs hq _ _ _ (by simp [initialBest])

/-- C1 witness: with all four backends failing the sentinel is returned, and
with the last backend returning the half-scoring non-empty set the result is
non-empty. -/
theorem claim_C1_witness :
    searchLoop defaultSearchConfig "example query" [.fails, .fails, .fails, .fails] =
      ([], "None") ∧
    (searchLoop defaultSearchConfig "example test"
        [.fails, .fails, .fails, AttemptOutcome.returns halfScoreResults]).1 ≠ [] := by
  constructor
  · exact (claim_C1 defaultSearchConfig "example query" .fails .fails .fails .fails []).1
      (by intro o ho; simp only [List.mem_cons, List.not_mem_nil, or_false] at ho;
          rcases ho with rfl | rfl | rfl | rfl <;> exact Or.inl rfl)
  · exact (claim_C1 defaultSearchConfig "example test" .fails .fails .fails .fails
      halfScoreResults).2 (by decide) (Or.inr (by decide))

/-! ## Claim C2 -/

/-- C2 counterexample: the first backend in priority order (`Browser
DuckDuckGo`, the claim's "baseline") returns a set whose score 1/2 is
acceptable (≥ 0.3) but not excellent (< 0.8) with forcing off, and `search`
returns it immediately — contradicting the claim that the first-priority
backend's acceptable-but-not-excellent results are never returned
immediately. -/
theorem claim_C2_counterexample :
    approachNames.head? = some "Browser DuckDuckGo" ∧
    defaultSearchConfig.qualityThreshold ≤
      assessResultQuality halfScoreResults "example test" ∧
    assessResultQuality halfScoreResults "example test" < mkRat 4 5 ∧
    defaultSearchConfig.forceMultiEngine = false ∧
    searchLoop defaultSearchConfig "example test"
        [AttemptOutcome.returns halfScoreResults, .fails, .fails, .fails] =
      (halfScoreResults, "Browser DuckDuckGo") := by
  refine ⟨rfl, by decide, by decide, rfl, by decide⟩

/-- C2 (amended): in the acceptable-quality tier (score ≥ threshold but
< 0.8, forcing off, not the last backend), the attempt's results are returned
immediately if and only if the backend's *name* is not `"Browser Bing"` —
which is the *second* entry of the priority list, not the first; the
first-priority backend (`"Browser DuckDuckGo"`) is returned immediately, and
it is Bing whose acceptable results only become the tracked best-so-far. -/
theorem claim_C2 (cfg : SearchConfig) (query : String) (name : String)
    (results : List SearchResult) (best : BestTrack)
    (hforce : cfg.forceMultiEngine = false) (hne : results ≠ [])
    (hth : cfg.qualityThreshold ≤ attemptScore cfg results query)
    (hlt : attemptScore cfg results query < mkRat 4 5) :
    searchStep cfg query false name results best =
      (if name = "Browser Bing" then
        StepOutcome.cont (updateBest best results name (attemptScore cfg results query))
      else StepOutcome.ret results name) ∧
    approachNames.get? 1 = some "Browser Bing" ∧
    approachNames.get? 0 = some "Browser DuckDuckGo" := by
  refine ⟨?_, rfl, rfl⟩
  have hpos : 0 < results.length := List.length_pos.mpr hne
  have h45 : ¬(mkRat 4 5 ≤ attemptScore cfg results query ∧ cfg.forceMultiEngine = false) := by
    rintro ⟨h, -⟩
    exact absurd h (not_le.mpr hlt)
  by_cases hn : name = "Browser Bing"
  · have h2 : ¬(cfg.qualityThreshold ≤ attemptScore cfg results query ∧
        name ≠ "Browser Bing" ∧ cfg.forceMultiEngine = false) := by
      rintro ⟨-, hne2, -⟩
      exact hne2 hn
    simp [searchStep, hpos, h45, h2, hn]
  · have h2 : cfg.qualityThreshold ≤ attemptScore cfg results query ∧
        name ≠ "Browser Bing" ∧ cfg.forceMultiEngine = false := ⟨hth, hn, hforce⟩
    simp [searchStep, hpos, h45, h2, hn]

/-- C2 witness: at the concrete half-scoring attempt, Bing's results are only
tracked while DuckDuckGo's identical-quality results are returned. -/
theorem claim_C2_witness :
    searchStep defaultSearchConfig "example test" false "Browser Bing"
        halfScoreResults initialBest =
      StepOutcome.cont (updateBest initialBest halfScoreResults "Browser Bing"
        (attemptScore defaultSearchConfig halfScoreResults "example test")) := by
  have h := (claim_C2 defaultSearchConfig "example test" "Browser Bing"
    halfScoreResults initialBest rfl (by decide) (by decide) (by decide)).1
  simpa using h

/-! ## Claim C6 -/

/-- C6 counterexample: the query `"ab"` yields no qualifying word, so the
claim demands a score of 1.0 for *every* result list including the empty
list; but `assessResultQuality` returns 0 for the empty list (the
`results.length === 0` check precedes the query-word check). -/
theorem claim_C6_counterexample :
    queryWords "ab" = [] ∧
    assessResultQuality ([] : List SearchResult) "ab" = 0 ∧
    (0 : ℚ) ≠ 1 := by
  refine ⟨by decide, by decide, by norm_num⟩

/-- C6 (amended): the score is always in [0,1]; the empty result list scores
0 regardless of the query; for a non-empty list the score is 1.0 when no
lowercased query word is longer than 3 characters, and otherwise it is the
number of results whose lowercased title or description contains a qualifying
word, divided by the number of results. -/
theorem claim_C6 (results : List SearchResult) (query : String) :
    0 ≤ assessResultQuality results query ∧
    assessResultQuality results query ≤ 1 ∧
    (results = [] → assessResultQuality results query = 0) ∧
    (results ≠ [] → queryWords query = [] → assessResultQuality results query = 1) ∧
    (results ≠ [] → queryWords query ≠ [] →
      assessResultQuality results query =
        ((results.filter (resultMatches (queryWords query))).length : ℚ) /
          (results.length : ℚ)) := by
  have hval : ∀ (m n : Nat), mkRat m n = (m : ℚ) / (n : ℚ) := by
    intro m n
    rw [Rat.mkRat_eq_divInt, Rat.divInt_eq_div]
    push_cast
    rfl
  rcases eq_or_ne results ([] : List SearchResult) with hnil | hnil
  · subst hnil
    have h0 : assessResultQuality [] query = 0 := rfl
    refine ⟨le_of_eq h0.symm, by rw [h0]; norm_num, fun _ => rfl,
      fun h => absurd rfl h, fun h => absurd rfl h⟩
  · have hlen : 0 < results.length := List.length_pos.mpr hnil
    have hlen0 : results.length ≠ 0 := Nat.pos_iff_ne_zero.mp hlen
    rcases eq_or_ne (queryWords query) ([] : List String) with hw | hw
    · have h1 : assessResultQuality results query = 1 := by
        simp [assessResultQuality, hlen0, hw]
      refine ⟨by rw [h1]; norm_num, by rw [h1], fun h => absurd h hnil,
        fun _ _ => h1, fun _ hw' => absurd hw hw'⟩
    · have hw0 : (queryWords query).length ≠ 0 := by
        simpa [List.length_eq_zero] using hw
      have hdef : assessResultQuality results query =
          ((results.filter (resultMatches (queryWords query))).length : ℚ) /
            (results.length : ℚ) := by
        simp only [assessResultQuality, if_neg hlen0, if_neg hw0]
        exact hval _ _
      have hfle : (results.filter (resultMatches (queryWords query))).length ≤
          results.length := List.length_filter_le _ _
      have hc0 : (0 : ℚ) < (results.length : ℚ) := by exact_mod_cast hlen
      refine ⟨?_, ?_, fun h => absurd h hnil, fun _ hw' => absurd hw' hw,
        fun _ _ => hdef⟩
      · rw [hdef]
        exact div_nonneg (by positivity) (le_of_lt hc0)
      · rw [hdef, div_le_one hc0]
        exact_mod_cast hfle

/-- C6 witness: a non-empty list against a too-short query scores 1.0, and
against `"example test"` (two qualifying words, one matching result of two)
it scores the match ratio. -/
theorem claim_C6_witness :
    assessResultQuality halfScoreResults "xy" = 1 ∧
    assessResultQuality halfScoreResults "example test" =
      ((halfScoreResults.filter
          (resultMatches (queryWords "example test"))).length : ℚ) /
        (halfScoreResults.length : ℚ) := by
  constructor
  · exact (claim_C6 halfScoreResults "xy").2.2.2.1 (by decide) (by decide)
  · exact (claim_C6 halfScoreResults "example test").2.2.2.2 (by decide) (by decide)

/-! ## Claim C10 -/

/-- C10: every result parser caps its output at `maxResults` (its `.each`
callbacks stop pushing once that many results are collected, in the primary
and fallback passes alike), and consequently every return path of the search
loop — immediate early return, tracked best-so-far, or the empty sentinel —
yields at most `numResults` results whenever each backend attempt yields at
most `numResults`. -/
theorem claim_C10 :
    (∀ primary fallback maxResults timestamp,
      (parseBraveResults primary fallback maxResults timestamp).length ≤ maxResults) ∧
    (∀ els maxResults timestamp,
      (parseBingResults els maxResults timestamp).length ≤ maxResults) ∧
    (∀ primary fallback maxResults timestamp,
      (parseDuckDuckGoBrowserResults primary fallback maxResults timestamp).length ≤
        maxResults) ∧
    (∀ cleanUrl els maxResults timestamp,
      (parseDuckDuckGoResults cleanUrl els maxResults timestamp).length ≤ maxResults) ∧
    (∀ (cfg : SearchConfig) (query : String) (outcomes : List AttemptOutcome)
        (numResults : Nat),
      (∀ rs, AttemptOutcome.returns rs ∈ outcomes → rs.length ≤ numResults) →
      (searchLoop cfg query outcomes).1.length ≤ numResults) := by
  have hcollect : ∀ timestamp maxResults descOf els,
      (collectResults timestamp maxResults descOf els).length ≤ maxResults := by
    intro timestamp maxResults descOf els
    exact foldl_collectStep_length_le timestamp maxResults id descOf els [] (by simp)
  refine ⟨?_, ?_, ?_, ?_, ?_⟩
  · intro primary fallback maxResults timestamp
    simp only [parseBraveResults]
    split
    · exact hcollect ..
    · exact hcollect ..
  · intro els maxResults timestamp
    exact hcollect ..
  · intro primary fallback maxResults timestamp
    simp only [parseDuckDuckGoBrowserResults]
    split
    · exact hcollect ..
    · exact hcollect ..
  · intro cleanUrl els maxResults timestamp
    exact foldl_collectStep_length_le timestamp maxResults cleanUrl _ els [] (by simp)
  · intro cfg query outcomes numResults h
    apply searchGo_length_le
    · intro p hp rs hrs
      have hmem : p.2 ∈ outcomes := by
        obtain ⟨a, b⟩ := p
        exact (List.of_mem_zip hp).2
      exact h rs (hrs ▸ hmem)
    · simp [initialBest]

/-- C10 witness: a concrete run in which the only non-failing attempt yields
one result, so the search returns at most one result. -/
theorem claim_C10_witness :
    (searchLoop defaultSearchConfig "example test"
        [AttemptOutcome.returns [exampleMatchResult], .fails, .fails, .fails]).1.length ≤ 1 := by
  apply claim_C10.2.2.2.2
  intro rs h
  simp only [List.mem_cons, List.not_mem_nil, or_false] at h
  rcases h with h | h | h | h
  · cases h; simp
  · cases h
  · cases h
  · cases h

/-! ## Claim C4 -/

/-- C4: single-flight launch. A `getBrowser()` call that runs its synchronous
checks while a launch promise `p` is pending (and hence no browser is
installed) awaits exactly that promise and leaves the pool state unchanged —
in particular it initiates no second launch, so N concurrent callers share
one launch and resolve to that one promise's browser. A call finding no
pending launch and no usable browser initiates exactly one launch and
installs its promise. Settlement clears the pending marker on success and
failure alike, and the context counter is reset to 0 exactly on successful
settlement (no other transition of `getBrowser` changes it). -/
theorem claim_C4 (connected : Nat → Bool) (freshPromise : Nat) (s : PoolState)
    (p b : Nat) :
    (s.browserLaunchPromise = some p → s.browser = none →
      getBrowserStep connected freshPromise s = (.awaitPending p, s)) ∧
    (s.browserLaunchPromise = none → s.browser = none →
      getBrowserStep connected freshPromise s =
        (.startLaunch freshPromise,
          { s with browserLaunchPromise := some freshPromise,
                   launchesStarted := s.launchesStarted + 1 })) ∧
    (settleLaunch s (some b) =
      { s with browser := some b, contextCount := 0, browserLaunchPromise := none }) ∧
    (settleLaunch s none = { s with browserLaunchPromise := none } ∧
      (settleLaunch s none).contextCount = s.contextCount) ∧
    ((getBrowserStep connected freshPromise s).2.contextCount = s.contextCount) := by
  refine ⟨?_, ?_, rfl, ⟨rfl, rfl⟩, ?_⟩
  · intro hp hb
    simp [getBrowserStep, hb, hp]
  · intro hp hb
    simp [getBrowserStep, hb, hp]
  · obtain ⟨br, lp, cc, ls, cl⟩ := s
    cases br <;> cases lp <;> simp only [getBrowserStep] <;> split_ifs <;> rfl

/-- C4 witness: a call arriving while launch promise 7 is pending awaits
promise 7 and changes nothing. -/
theorem claim_C4_witness :
    getBrowserStep (fun _ => true) 9 ⟨none, some 7, 5, 1, []⟩ =
      (.awaitPending 7, ⟨none, some 7, 5, 1, []⟩) :=
  (claim_C4 (fun _ => true) 9 ⟨none, some 7, 5, 1, []⟩ 7 3).1 rfl rfl

/-! ## Claim C9 -/

/-- C9: browser rotation. While the current browser is connected and its
context count is below `MAX_CONTEXTS_PER_BROWSER` (50), `getBrowser()`
returns it unchanged. Once the count has reached 50 (as it has after 50
`getContext` calls, each of which increments the counter by one), the next
`getBrowser()` call hands the old browser to `safeCloseBrowser` (errors
swallowed there), launches a new browser and returns it with the context
count reset to 0. -/
theorem claim_C9 (connected : Nat → Bool) (freshPromise : Nat)
    (launchResult pendingResult : Option Nat) (s : PoolState) (b b' : Nat) :
    (s.browser = some b → connected b = true →
      s.contextCount < MAX_CONTEXTS_PER_BROWSER →
      runGetBrowser connected freshPromise launchResult pendingResult s = (some b, s)) ∧
    (s.browser = some b → MAX_CONTEXTS_PER_BROWSER ≤ s.contextCount →
      s.browserLaunchPromise = none →
      runGetBrowser connected freshPromise (some b') pendingResult s =
        (some b', ⟨some b', none, 0, s.launchesStarted + 1, s.closed ++ [b]⟩)) ∧
    (∀ res s', runGetBrowser connected freshPromise launchResult pendingResult s =
        (some res, s') →
      getContext connected freshPromise launchResult pendingResult s =
        (some res, { s' with contextCount := s'.contextCount + 1 })) := by
  refine ⟨?_, ?_, ?_⟩
  · intro hb hc hlt
    simp [runGetBrowser, getBrowserStep, hb, hc, hlt]
  · intro hb hc hlp
    have hnc : ¬(connected b = true ∧ s.contextCount < MAX_CONTEXTS_PER_BROWSER) := by
      rintro ⟨-, h⟩
      exact absurd h (not_lt.mpr hc)
    simp [runGetBrowser, getBrowserStep, hb, hnc, hlp, settleLaunch]
  · intro res s' h
    simp [getContext, h]

/-- C9 witness: a connected browser with 12 issued contexts is reused
unchanged; at 50 contexts the next call rotates to a fresh browser with the
counter reset to 0 and the old browser closed. -/
theorem claim_C9_witness :
    runGetBrowser (fun _ => true) 9 (some 6) none ⟨some 4, none, 12, 1, []⟩ =
      (some 4, ⟨some 4, none, 12, 1, []⟩) ∧
    runGetBrowser (fun _ => true) 9 (some 6) none ⟨some 4, none, 50, 1, []⟩ =
      (some 6, ⟨some 6, none, 0, 2, [4]⟩) := by
  constructor
  · exact (claim_C9 (fun _ => true) 9 (some 6) none ⟨some 4, none, 12, 1, []⟩ 4 6).1
      rfl rfl (by norm_num [MAX_CONTEXTS_PER_BROWSER])
  · have h := (claim_C9 (fun _ => true) 9 (some 6) none ⟨some 4, none, 50, 1, []⟩ 4 6).2.1
      rfl (by norm_num [MAX_CONTEXTS_PER_BROWSER]) rfl
    simpa using h

/-! ## Claim C3 -/

/-- C3: the durable quota limiter. When the count has reached the monthly
cap, `execute` throws the monthly-limit error (which reports the days until
the month rolls over) without invoking `fn` and without changing the usage or
the file; below the cap `fn` is invoked, and the count is incremented and
persisted exactly when `fn` succeeds — a failing `fn` leaves both untouched.
`loadUsage` resets a record from a different month (or a missing/corrupt
file) to count 0, and a count that is at most the cap stays at most the cap
across any `execute`. -/
theorem claim_C3 (cap daysUntilReset : Nat) (st : LimiterState) (fn : FnOutcome)
    (u : MonthlyUsage) (currentMonth : String) :
    (cap ≤ st.usage.count →
      execute cap daysUntilReset st fn = (.monthlyLimitError daysUntilReset, st)) ∧
    (st.usage.count < cap →
      execute cap daysUntilReset st .succeeds =
        (.ranFn .succeeds,
          { usage := ⟨st.usage.month, st.usage.count + 1⟩,
            file := some ⟨st.usage.month, st.usage.count + 1⟩ })) ∧
    (st.usage.count < cap →
      execute cap daysUntilReset st .fails = (.ranFn .fails, st)) ∧
    (u.month ≠ currentMonth →
      loadUsage (some u) currentMonth = ⟨currentMonth, 0⟩) ∧
    (loadUsage none currentMonth = ⟨currentMonth, 0⟩) ∧
    (st.usage.count ≤ cap →
      (execute cap daysUntilReset st fn).2.usage.count ≤ cap) := by
  refine ⟨?_, ?_, ?_, ?_, rfl, ?_⟩
  · intro h
    simp [execute, h]
  · intro h
    simp [execute, not_le.mpr h]
  · intro h
    simp [execute, not_le.mpr h]
  · intro h
    simp [loadUsage, h]
  · intro h
    by_cases hcap : cap ≤ st.usage.count
    · simpa [execute, hcap] using h
    · cases fn
      · simp only [execute, if_neg hcap]
        exact Nat.succ_le_of_lt (not_le.mp hcap)
      · simpa [execute, hcap] using h

/-- C3 witness: at cap 2000 with 2000 used, the call is refused unchanged; at
5 used, a successful call moves both the memory and the file to 6; a record
from last month reloads as 0. -/
theorem claim_C3_witness :
    execute 2000 21 ⟨⟨"2026-10", 2000⟩, some ⟨"2026-10", 2000⟩⟩ .succeeds =
      (.monthlyLimitError 21, ⟨⟨"2026-10", 2000⟩, some ⟨"2026-10", 2000⟩⟩) ∧
    execute 2000 21 ⟨⟨"2026-10", 5⟩, some ⟨"2026-10", 5⟩⟩ .succeeds =
      (.ranFn .succeeds, ⟨⟨"2026-10", 6⟩, some ⟨"2026-10", 6⟩⟩) ∧
    loadUsage (some ⟨"2026-09", 1999⟩) "2026-10" = ⟨"2026-10", 0⟩ := by
  refine ⟨?_, ?_, ?_⟩
  · exact (claim_C3 2000 21 _ .succeeds ⟨"2026-09", 1999⟩ "2026-10").1 (by norm_num)
  · have h := (claim_C3 2000 21 ⟨⟨"2026-10", 5⟩, some ⟨"2026-10", 5⟩⟩ .succeeds
      ⟨"2026-09", 1999⟩ "2026-10").2.1 (by norm_num)
    simpa using h
  · exact (claim_C3 2000 21 ⟨⟨"2026-10", 5⟩, some ⟨"2026-10", 5⟩⟩ .succeeds
      ⟨"2026-09", 1999⟩ "2026-10").2.2.2.1 (by decide)

/-! ## Claim C5 -/

theorem mkRat_natCast_div (m n : Nat) : mkRat m n = (m : ℚ) / (n : ℚ) := by
  rw [Rat.mkRat_eq_divInt, Rat.divInt_eq_div]
  push_cast
  rfl

theorem gc_age_guard_iff (e m : Nat) :
    (mkRat e 1 < mkRat m 1000) ↔ e * 1000 < m := by
  rw [mkRat_natCast_div, mkRat_natCast_div]
  push_cast
  rw [div_lt_div_iff₀ (by norm_num : (0:ℚ) < 1) (by norm_num : (0:ℚ) < 1000)]
  constructor
  · intro h
    have h' : (e : ℚ) * 1000 < (m : ℚ) := by linarith
    exact_mod_cast h'
  · intro h
    have h' : ((e : ℚ)) * 1000 < (m : ℚ) := by exact_mod_cast h
    linarith

theorem gc_orphan_age_iff (m e : Nat) :
    (mkRat m 60000 < mkRat e 60) ↔ m < e * 1000 := by
  rw [mkRat_natCast_div, mkRat_natCast_div]
  push_cast
  rw [div_lt_div_iff₀ (by norm_num : (0:ℚ) < 60000) (by norm_num : (0:ℚ) < 60)]
  constructor
  · intro h
    have h' : (m : ℚ) < (e : ℚ) * 1000 := by linarith
    exact_mod_cast h'
  · intro h
    have h' : (m : ℚ) < (e : ℚ) * 1000 := by exact_mod_cast h
    linarith

/-- C5 counterexample: a 40-minute-old process whose command line mentions
`playwright` but does *not* reference the `/tmp/playwright` temporary profile
path is terminated under the default 30-minute config — so "matches the
automation fingerprint" cannot mean "references the automation engine's
temporary profile path"; the code's fingerprint is the mere substring
`playwright`. -/
theorem claim_C5_counterexample :
    gcShouldKill defaultMaxProcessAgeMs 1
        ⟨99, 2400, "/usr/bin/chrome --headless playwright-run"⟩ = true ∧
    strContains "/usr/bin/chrome --headless playwright-run"
      "user-data-dir=/tmp/playwright" = false := by
  constructor
  · decide
  · decide

/-- C5 (amended): a sweep terminates a process iff its pid differs from the
reaper's own pid, its age strictly exceeds the configured max age
(`etime * 1000 > maxProcessAgeMs`), and its command line contains the
substring `playwright` (the `user-data-dir=/tmp/playwright` alternative is
subsumed, since that string itself contains `playwright`); a process whose
command line mentions neither is left untouched regardless of age, and the
reaper never targets its own pid. -/
theorem claim_C5 (maxProcessAgeMs myPid : Nat) (proc : ProcessInfo) :
    (gcShouldKill maxProcessAgeMs myPid proc = true ↔
      (proc.pid ≠ myPid ∧ maxProcessAgeMs < proc.etime * 1000 ∧
        (strContains proc.cmd "playwright" = true ∨
          strContains proc.cmd "user-data-dir=/tmp/playwright" = true))) ∧
    (proc.pid = myPid → gcShouldKill maxProcessAgeMs myPid proc = false) ∧
    (strContains proc.cmd "playwright" = false →
      strContains proc.cmd "user-data-dir=/tmp/playwright" = false →
      gcShouldKill maxProcessAgeMs myPid proc = false) := by
  refine ⟨?_, ?_, ?_⟩
  · unfold gcShouldKill isOrphanedChrome
    constructor
    · intro h
      by_cases h1 : mkRat proc.etime 1 < mkRat maxProcessAgeMs 1000
      · rw [if_pos h1] at h; cases h
      · rw [if_neg h1] at h
        by_cases h2 : proc.pid = myPid
        · rw [if_pos h2] at h; cases h
        · rw [if_neg h2] at h
          by_cases h3 : (strContains proc.cmd "playwright" = false ∧
              strContains proc.cmd "user-data-dir=/tmp/playwright" = false)
          · rw [if_pos h3] at h; cases h
          · rw [if_neg h3] at h
            refine ⟨h2, (gc_orphan_age_iff _ _).mp (of_decide_eq_true h), ?_⟩
            rcases not_and_or.mp h3 with hc | hc
            · exact Or.inl (by simpa using hc)
            · exact Or.inr (by simpa using hc)
    · rintro ⟨hpid, hage, hfp⟩
      have hg1 : ¬(mkRat proc.etime 1 < mkRat maxProcessAgeMs 1000) := by
        rw [gc_age_guard_iff]
        omega
      have hg3 : ¬(strContains proc.cmd "playwright" = false ∧
          strContains proc.cmd "user-data-dir=/tmp/playwright" = false) := by
        rcases hfp with h | h <;> simp [h]
      rw [if_neg hg1, if_neg hpid, if_neg hg3]
      exact decide_eq_true ((gc_orphan_age_iff _ _).mpr hage)
  · intro h
    unfold gcShouldKill
    by_cases h1 : mkRat proc.etime 1 < mkRat maxProcessAgeMs 1000
    · rw [if_pos h1]
    · rw [if_neg h1, if_pos h]
  · intro h1 h2
    unfold gcShouldKill isOrphanedChrome
    by_cases g1 : mkRat proc.etime 1 < mkRat maxProcessAgeMs 1000
    · rw [if_pos g1]
    · rw [if_neg g1]
      by_cases g2 : proc.pid = myPid
      · rw [if_pos g2]
      · rw [if_neg g2, if_pos (show _ ∧ _ from ⟨h1, h2⟩)]

/-- C5 witness: under the default 30-minute config, a 40-minute-old process
whose command line references the `/tmp/playwright` profile is killed, a
40-minute-old process without the automation fingerprint is spared, and the
reaper spares its own pid even for an old fingerprinted process. -/
theorem claim_C5_witness :
    gcShouldKill defaultMaxProcessAgeMs 1
        ⟨99, 2400, "/opt/chrome --user-data-dir=/tmp/playwright_chromium-profile"⟩ = true ∧
    gcShouldKill defaultMaxProcessAgeMs 1
        ⟨98, 2400, "/usr/lib/firefox/firefox -contentproc"⟩ = false ∧
    gcShouldKill defaultMaxProcessAgeMs 1
        ⟨1, 2400, "/opt/chrome --user-data-dir=/tmp/playwright_chromium-profile"⟩ = false := by
  refine ⟨?_, ?_, ?_⟩
  · exact (claim_C5 defaultMaxProcessAgeMs 1 _).1.mpr
      ⟨by norm_num, by norm_num [defaultMaxProcessAgeMs], Or.inr (by decide)⟩
  · exact (claim_C5 defaultMaxProcessAgeMs 1 _).2.2 (by decide) (by decide)
  · exact (claim_C5 defaultMaxProcessAgeMs 1 _).2.1 rfl

theorem strTake_length (s : String) (n : Nat) :
    (strTake s n).length = min n s.length := by
  obtain ⟨l⟩ := s
  simp [strTake, String.length]

/-! ## Claim C7 -/

set_option maxRecDepth 8192 in
/-- C7 counterexample: the lightweight fetch fails with a 403, escalation
fires, and the rendered-browser path returns 300 characters of extracted text
even though the call requested `maxLength = 150` — the rendered path never
reads the per-call `maxContentLength` option, so the returned text is *not*
truncated to the requested maximum on that path. -/
theorem claim_C7_counterexample :
    extractContent
        (Except.error
          { status := some 403
            message := "Request failed with status code 403"
            data := none })
        (Except.ok overlongContent) 500000 150 "http://site.example" =
      Except.ok overlongContent ∧
    overlongContent.length = 300 ∧
    (150 : Nat) < 300 := by
  refine ⟨rfl, by decide, by norm_num⟩

/-- C7 (amended): on the lightweight (HTTP fetch) path, extracted text longer
than the requested non-zero `maxLength` is silently truncated to exactly
`maxLength` characters (the only other outcome is the low-quality rejection,
never an overlength error); on the rendered-browser path the per-call
`maxLength` is ignored, and the text is truncated only to the extractor's
instance-wide `maxContentLength`. -/
theorem claim_C7 (body html : String) (instanceMaxLen requestedMaxLen : Nat)
    (c : String) :
    (0 < requestedMaxLen →
      requestedMaxLen < (cleanText body instanceMaxLen).length →
      extractWithAxios (Except.ok body) instanceMaxLen requestedMaxLen = Except.ok c →
      c.length = requestedMaxLen) ∧
    (extractWithBrowser (Except.ok html) instanceMaxLen =
      Except.ok (cleanText html instanceMaxLen)) ∧
    ((cleanText html instanceMaxLen).length = min html.length instanceMaxLen) := by
  refine ⟨?_, rfl, ?_⟩
  · intro hpos hlt hok
    have hcond : requestedMaxLen ≠ 0 ∧
        requestedMaxLen < (cleanText body instanceMaxLen).length :=
      ⟨Nat.pos_iff_ne_zero.mp hpos, hlt⟩
    simp only [extractWithAxios, if_pos hcond] at hok
    by_cases hq : isLowQualityContent (strTake (cleanText body instanceMaxLen) requestedMaxLen)
    · rw [if_pos hq] at hok
      cases hok
    · rw [if_neg hq] at hok
      cases hok
      rw [strTake_length]
      omega
  · simp only [cleanText]
    split
    · next h =>
      rw [strTake_length]
      omega
    · next h =>
      omega

set_option maxRecDepth 8192 in
/-- C7 witness: with a 300-character body and a requested maximum of 150, the
lightweight path returns exactly 150 characters. -/
theorem claim_C7_witness :
    (strTake overlongContent 150).length = 150 :=
  (claim_C7 overlongContent "" 500000 150 (strTake overlongContent 150)).1
    (by norm_num) (by decide) rfl

/-! ## Claim C8 -/

/-- C8: bulk extraction filters out PDF URLs, processes at most
`min(2 × targetCount, 10)` candidates, returns at most `targetCount` records
ordered with every successful extraction before any failed one, and every
failed record carries `fetchStatus = error` together with the classified
message `getSpecificErrorMessage` produces for the caught exception (timeout,
403, 404, content-too-long, HTTP-status or generic network error) — a failing
candidate contributes such a record instead of aborting the batch. -/
theorem claim_C8 (instanceMaxLen : Nat) (timestamp : String)
    (attempt : SearchResult → Except CaughtError String)
    (results : List SearchResult) (targetCount : Nat) :
    (extractContentForResults instanceMaxLen timestamp attempt results
      targetCount).length ≤ targetCount ∧
    (candidatesToProcess results targetCount).length ≤ min (targetCount * 2) 10 ∧
    (∀ r ∈ candidatesToProcess results targetCount, isPdfUrl r.url = false) ∧
    (∃ a b, extractContentForResults instanceMaxLen timestamp attempt results
        targetCount = a ++ b ∧
      (∀ r ∈ a, r.fetchStatus = .success) ∧ (∀ r ∈ b, r.fetchStatus = .error)) ∧
    (∀ r ∈ extractContentForResults instanceMaxLen timestamp attempt results
        targetCount,
      r.fetchStatus = .error → ∃ e, r.error = some (getSpecificErrorMessage e)) := by
  refine ⟨?_, ?_, ?_, ?_, ?_⟩
  · simp only [extractContentForResults]
    exact List.length_take_le _ _
  · simp only [candidatesToProcess]
    exact List.length_take_le _ _
  · intro r hr
    simp only [candidatesToProcess] at hr
    have hr' := List.take_subset _ _ hr
    simpa using (List.mem_filter.mp hr').2
  · simp only [extractContentForResults]
    rw [List.take_append_eq_append_take]
    refine ⟨_, _, rfl, ?_, ?_⟩
    · intro r hr
      have h1 := List.take_subset _ _ hr
      have h2 := List.take_subset _ _ h1
      simpa using (List.mem_filter.mp h2).2
    · intro r hr
      have h1 := List.take_subset _ _ hr
      have h2 := List.take_subset _ _ h1
      simpa using (List.mem_filter.mp h2).2
  · intro r hr herr
    simp only [extractContentForResults] at hr
    have h1 := List.take_subset _ _ hr
    rcases List.mem_append.mp h1 with h2 | h2
    · have h3 := List.take_subset _ _ h2
      have h4 := (List.mem_filter.mp h3).2
      simp only [decide_eq_true_eq] at h4
      rw [herr] at h4
      cases h4
    · have h3 := List.take_subset _ _ h2
      have hmem := (List.mem_filter.mp h3).1
      obtain ⟨x, hx, hpx⟩ := List.mem_map.mp hmem
      cases hax : attempt x with
      | ok content =>
        rw [← hpx] at herr
        simp [processOne, hax] at herr
      | error e =>
        refine ⟨e, ?_⟩
        rw [← hpx]
        simp [processOne, hax]

/-- C8 witness: one non-PDF candidate whose extraction throws a non-axios
error yields a batch of at most one record, and the failed record carries the
classified `"Unknown error"` message. -/
theorem claim_C8_witness :
    (extractContentForResults 500000 "t1"
        (fun _ => Except.error (CaughtError.genericErr none)) [noMatchResult]
        1).length ≤ 1 ∧
    ∃ e, failedNoMatchRecord.error = some (getSpecificErrorMessage e) := by
  constructor
  · exact (claim_C8 500000 "t1"
      (fun _ => Except.error (CaughtError.genericErr none)) [noMatchResult] 1).1
  · have hout : extractContentForResults 500000 "t1"
        (fun _ => Except.error (CaughtError.genericErr none)) [noMatchResult] 1 =
        [failedNoMatchRecord] := by decide
    exact (claim_C8 500000 "t1"
      (fun _ => Except.error (CaughtError.genericErr none)) [noMatchResult] 1).2.2.2.2
      failedNoMatchRecord (by rw [hout]; simp) rfl

end WebSearchMcp
